import Mathlib

/-!
Formal model of the kirby-like-game entity-behavior layer (TypeScript /
Kaboom.js sources: src/state.ts, src/main.ts, src/entities.ts).  Pure
functions and event handlers of the source are embedded as executable
Lean definitions; the theorems at the end of the file settle the
specification claims about scene state, the player's damage / inhale /
shoot handlers, enemy capture flags, the enemy finite-state machines,
destroy idempotence and determinism of the per-tick resolution.
-/

namespace KirbyGame

/-! ## Global game state (src/state.ts) -/

/-- The mutable global object of src/state.ts: the fixed scene list and
the next / current scene names. -/
structure GlobalGameState where
  scenes : List String
  nextScene : String
  currentScene : String
  deriving DecidableEq, Repr

/-- The literal initial value of the global object: scenes
["level-1", "level-2", "end"], nextScene "", currentScene "level-1". -/
def initialGameState : GlobalGameState :=
  { scenes := ["level-1", "level-2", "end"]
    nextScene := ""
    currentScene := "level-1" }

/-- setCurrentScene: assigns currentScene only when the name is a member
of the scenes array (this.scenes.includes(sceneName) guard). -/
def setCurrentScene (g : GlobalGameState) (sceneName : String) : GlobalGameState :=
  if sceneName ∈ g.scenes then { g with currentScene := sceneName } else g

/-- setNextScene: assigns nextScene only when the name is a member of
the scenes array. -/
def setNextScene (g : GlobalGameState) (sceneName : String) : GlobalGameState :=
  if sceneName ∈ g.scenes then { g with nextScene := sceneName } else g

/-- One call to one of the two setters of the global object. -/
inductive SceneCall where
  | setCurrent (name : String)
  | setNext (name : String)
  deriving DecidableEq, Repr

/-- Apply a single setter call. -/
def applySceneCall (g : GlobalGameState) : SceneCall → GlobalGameState
  | .setCurrent n => setCurrentScene g n
  | .setNext n => setNextScene g n

/-- Apply a sequence of setter calls in order. -/
def applySceneCalls (g : GlobalGameState) : List SceneCall → GlobalGameState
  | [] => g
  | c :: cs => applySceneCalls (applySceneCall g c) cs

/-- Neither setter ever changes the scenes list itself. -/
theorem applySceneCall_scenes (g : GlobalGameState) (c : SceneCall) :
    (applySceneCall g c).scenes = g.scenes := by
  cases c <;> simp [applySceneCall, setCurrentScene, setNextScene] <;> split <;> rfl

/-- A sequence of setter calls never changes the scenes list. -/
theorem applySceneCalls_scenes (cs : List SceneCall) (g : GlobalGameState) :
    (applySceneCalls g cs).scenes = g.scenes := by
  induction cs generalizing g with
  | nil => rfl
  | cons c cs ih => simpa [applySceneCalls, applySceneCall_scenes] using ih (applySceneCall g c)

/-- Scene-name membership invariant preserved by a single call. -/
theorem applySceneCall_inv (g : GlobalGameState) (c : SceneCall)
    (hc : g.currentScene ∈ g.scenes)
    (hn : g.nextScene = "" ∨ g.nextScene ∈ g.scenes) :
    (applySceneCall g c).currentScene ∈ (applySceneCall g c).scenes ∧
      ((applySceneCall g c).nextScene = "" ∨
        (applySceneCall g c).nextScene ∈ (applySceneCall g c).scenes) := by
  cases c with
  | setCurrent n =>
    simp only [applySceneCall, setCurrentScene]
    split <;> simp_all
  | setNext n =>
    simp only [applySceneCall, setNextScene]
    split <;> simp_all

/-- Scene-name membership invariant preserved by any call sequence. -/
theorem applySceneCalls_inv (cs : List SceneCall) (g : GlobalGameState)
    (hc : g.currentScene ∈ g.scenes)
    (hn : g.nextScene = "" ∨ g.nextScene ∈ g.scenes) :
    (applySceneCalls g cs).currentScene ∈ (applySceneCalls g cs).scenes ∧
      ((applySceneCalls g cs).nextScene = "" ∨
        (applySceneCalls g cs).nextScene ∈ (applySceneCalls g cs).scenes) := by
  induction cs generalizing g with
  | nil => exact ⟨hc, hn⟩
  | cons c cs ih =>
    have h := applySceneCall_inv g c hc hn
    exact ih (applySceneCall g c) h.1 h.2

/-! ## Player controller (src/entities.ts: makePlayer, setControls)

The player object carries the booleans isInhaling / isFull, a health
counter (k.health(3)), a facing direction and the currently playing
animation.  The inhale-effect entity has an opacity toggled by the
input handlers.  The handlers embedded below are, verbatim from the
source:
  * player.onCollide("enemy", ...)   (makePlayer, damage / capture),
  * k.onKeyDown "z" / "left" / "right" branches (setControls),
  * k.onKeyRelease "z" branch (setControls), which spawns the
    shooting-star projectile and schedules k.wait(1, play kirbIdle).
Destroying an entity removes it from the engine scene graph, so no
handler of a destroyed player runs afterwards. -/

/-- Facing direction of the player (the direction string field). -/
inductive Direction where
  | left
  | right
  deriving DecidableEq, Repr

/-- The player animations used by the inhale / shoot handlers. -/
inductive Anim where
  | kirbIdle
  | kirbInhaling
  | kirbFull
  deriving DecidableEq, Repr

/-- A shooting-star projectile: its movement direction and its fixed
speed (k.move(k.LEFT or k.RIGHT, 800) in the key-release handler). -/
structure Star where
  dir : Direction
  speed : Nat
  deriving DecidableEq, Repr

/-- The player entity state: health points, the two inhale booleans,
facing direction, current animation, and whether the entity still
exists (k.destroy clears it). -/
structure Player where
  hp : Nat
  isInhaling : Bool
  isFull : Bool
  direction : Direction
  anim : Anim
  alive : Bool
  deriving DecidableEq, Repr

/-- The slice of the world the player handlers touch: the player, the
inhale-effect opacity, the spawned projectiles, the count of enemies
destroyed by capture, the respawn (scene-restart) count, and the
remaining time of the pending k.wait(1) cooldown, if one is pending. -/
structure PWorld where
  player : Player
  effectOpacity : Nat
  stars : List Star
  destroyedEnemies : Nat
  respawns : Nat
  idleWait : Option ℚ
  deriving DecidableEq, Repr

/-- The player as created by makePlayer: k.health(3), facing right,
kirbIdle animation, not inhaling, not full. -/
def initialPlayer : Player :=
  { hp := 3, isInhaling := false, isFull := false
    direction := .right, anim := .kirbIdle, alive := true }

/-- World at scene start: fresh player, inhale effect at opacity 0, no
projectiles, no pending cooldown. -/
def initialPWorld : PWorld :=
  { player := initialPlayer, effectOpacity := 0, stars := []
    destroyedEnemies := 0, respawns := 0, idleWait := none }

/-- Events delivered to the player handlers: held-key dispatches, the
inhale-key release, a contact with an enemy (carrying that enemy's
isInhalable flag at contact time), and the passage of dt seconds of
scheduler time (which fires the pending k.wait callback when it comes
due). -/
inductive PEvent where
  | keyDownLeft
  | keyDownRight
  | keyDownZ
  | keyReleaseZ
  | collideEnemy (inhalable : Bool)
  | tick (dt : ℚ)
  deriving DecidableEq, Repr

/-- The player.onCollide("enemy") handler of makePlayer, in source
order: (1) if isInhaling and the enemy isInhalable, stop inhaling,
destroy the enemy and become full; (2) else if hp() === 0, destroy the
player and restart the current scene; (3) else hurt() by one (the
opacity flicker tween is visual only). -/
def onCollideEnemy (w : PWorld) (inhalable : Bool) : PWorld :=
  if w.player.isInhaling && inhalable then
    { w with
      player := { w.player with isInhaling := false, isFull := true }
      destroyedEnemies := w.destroyedEnemies + 1 }
  else if w.player.hp = 0 then
    { w with
      player := { w.player with alive := false }
      respawns := w.respawns + 1 }
  else
    { w with player := { w.player with hp := w.player.hp - 1 } }

/-- The "z" branch of the k.onKeyDown handler of setControls: while
full, play kirbFull and hide the inhale effect; otherwise start
inhaling, play kirbInhaling and show the inhale effect. -/
def onKeyDownZ (w : PWorld) : PWorld :=
  if w.player.isFull then
    { w with player := { w.player with anim := .kirbFull }, effectOpacity := 0 }
  else
    { w with
      player := { w.player with isInhaling := true, anim := .kirbInhaling }
      effectOpacity := 1 }

/-- The "z" branch of the k.onKeyRelease handler of setControls: while
full, play kirbInhaling, spawn one shooting star moving at speed 800 in
the facing direction, clear isFull and schedule k.wait(1) to play
kirbIdle; otherwise hide the inhale effect, stop inhaling and play
kirbIdle. -/
def onKeyReleaseZ (w : PWorld) : PWorld :=
  if w.player.isFull then
    { w with
      player := { w.player with isFull := false, anim := .kirbInhaling }
      stars := ⟨w.player.direction, 800⟩ :: w.stars
      idleWait := some 1 }
  else
    { w with
      player := { w.player with isInhaling := false, anim := .kirbIdle }
      effectOpacity := 0 }

/-- dt seconds of scheduler time: the pending k.wait(1) callback fires
once its remaining time is used up, playing kirbIdle. -/
def onTick (w : PWorld) (dt : ℚ) : PWorld :=
  match w.idleWait with
  | none => w
  | some r =>
    if r ≤ dt then
      { w with player := { w.player with anim := .kirbIdle }, idleWait := none }
    else
      { w with idleWait := some (r - dt) }

/-- Dispatch one event to the player handlers.  A destroyed player has
been removed from the scene graph, so only scheduler time passes. -/
def stepP (w : PWorld) : PEvent → PWorld
  | .keyDownLeft =>
    if w.player.alive then
      { w with player := { w.player with direction := .left } }
    else w
  | .keyDownRight =>
    if w.player.alive then
      { w with player := { w.player with direction := .right } }
    else w
  | .keyDownZ => if w.player.alive then onKeyDownZ w else w
  | .keyReleaseZ => if w.player.alive then onKeyReleaseZ w else w
  | .collideEnemy inh => if w.player.alive then onCollideEnemy w inh else w
  | .tick dt => onTick w dt

/-- Run a sequence of events from a world. -/
def runP (w : PWorld) : List PEvent → PWorld
  | [] => w
  | e :: es => runP (stepP w e) es

/-- The inhale FSM state of the specification, derived from the two
booleans the source tracks: Full when isFull, else Inhaling when
isInhaling, else Idle. -/
inductive InhaleState where
  | idle
  | inhaling
  | full
  deriving DecidableEq, Repr

/-- Derive the specification-level inhale state from the player. -/
def Player.inhaleState (p : Player) : InhaleState :=
  if p.isFull then .full else if p.isInhaling then .inhaling else .idle

/-! ## Capture-flag handlers (src/entities.ts: makeInhalable)

makeInhalable registers, on the enemy, exactly two handlers touching
isInhalable: onCollide("inhaleZone") sets it true, and
onCollideEnd("inhaleZone") sets it false.  Neither handler reads the
player, and no handler reacts to the player leaving the inhaling
state. -/

/-- An edge event relevant to an enemy's isInhalable flag, tagged with
whether the player was inhaling at that instant.  The player-state
change events exist in the game (the "z" press / release handlers) but
makeInhalable registers nothing on them. -/
inductive ZoneEvent where
  | beginOverlap (playerInhaling : Bool)
  | endOverlap (playerInhaling : Bool)
  | playerStartsInhaling
  | playerStopsInhaling
  deriving DecidableEq, Repr

/-- The effect of one event on the enemy's isInhalable flag, as
registered by makeInhalable: begin-overlap sets it, end-overlap clears
it, and player-state changes are not listened to. -/
def inhalableStep (b : Bool) : ZoneEvent → Bool
  | .beginOverlap _ => true
  | .endOverlap _ => false
  | .playerStartsInhaling => b
  | .playerStopsInhaling => b

/-- Fold the flag over an event trace (enemies spawn with the flag
false or absent, which reads as false). -/
def inhalableAfter (b : Bool) : List ZoneEvent → Bool
  | [] => b
  | e :: es => inhalableAfter (inhalableStep b e) es

/-! ## Generic state machine (engine-side k.state component)

Modelled from the spec: the generic State Machine of section 4.1.  Its
implementation lives in the game engine, not under src/; only its
callers are in src/ (makeFlameEnemy declares k.state("idle",
["idle", "jump"]), makeGuyEnemy declares k.state("idle",
["idle", "left", "right", "jump"])).  Per the spec, enterState(name)
with an undeclared name fails silently: current state unchanged, no
enter or exit callbacks fired. -/

/-- A declared finite-state machine: the legal state names and the
current state. -/
structure Fsm where
  states : List String
  current : String
  deriving DecidableEq, Repr

/-- A callback firing recorded by a transition: which state's enter or
exit handler ran. -/
inductive CallbackFire where
  | enterCb (state : String)
  | exitCb (state : String)
  deriving DecidableEq, Repr

/-- Modelled from the spec: enterState(name).  On a declared name, fire
the exit callback of the current state, set the current state and fire
the enter callback of the new state; on an undeclared name do nothing
and fire nothing. -/
def enterState (m : Fsm) (name : String) : Fsm × List CallbackFire :=
  if name ∈ m.states then
    ({ m with current := name }, [.exitCb m.current, .enterCb name])
  else
    (m, [])

/-- The flame enemy's FSM as declared in makeFlameEnemy. -/
def flameFsm : Fsm := { states := ["idle", "jump"], current := "idle" }

/-- The guy enemy's FSM as declared in makeGuyEnemy. -/
def guyFsm : Fsm := { states := ["idle", "left", "right", "jump"], current := "idle" }

/-! ## Destroy idempotence (engine-side k.destroy primitive)

Modelled from the spec: the idempotent destroy guard of sections 4.2
and 9.  k.destroy is an engine primitive not under src/; only its
callers are (makeInhalable's onCollide("shootingStar") handler destroys
the enemy and the projectile; makePlayer's capture branch destroys the
enemy).  Per the spec, destroying an entity already marked destroyed is
a no-op, and each applied destroy event is recorded once. -/

/-- Entities are identified by numbers; the world tracks which are
marked destroyed and the ordered log of destroy events applied. -/
structure DWorld where
  destroyed : List Nat
  destroyLog : List Nat
  deriving DecidableEq, Repr

/-- Modelled from the spec: the guarded destroy primitive — a no-op on
an entity already marked destroyed, otherwise mark it and record one
destroy event. -/
def destroyEntity (w : DWorld) (e : Nat) : DWorld :=
  if e ∈ w.destroyed then w
  else { destroyed := e :: w.destroyed, destroyLog := w.destroyLog ++ [e] }

/-- The enemy.onCollide("shootingStar") handler of makeInhalable:
destroy the enemy, then destroy the projectile. -/
def starHitHandler (w : DWorld) (enemy star : Nat) : DWorld :=
  destroyEntity (destroyEntity w enemy) star

/-- The capture branch of the player's enemy-collision handler, as a
destroy action: destroy the captured enemy. -/
def captureDestroy (w : DWorld) (enemy : Nat) : DWorld :=
  destroyEntity w enemy

/-- Marked entities only accumulate under a destroy. -/
theorem destroyEntity_destroyed_mono (w : DWorld) (e a : Nat)
    (h : a ∈ w.destroyed) : a ∈ (destroyEntity w e).destroyed := by
  unfold destroyEntity
  split
  · exact h
  · exact List.mem_cons_of_mem _ h

/-- After a destroy, the target is marked destroyed. -/
theorem destroyEntity_mem (w : DWorld) (e : Nat) :
    e ∈ (destroyEntity w e).destroyed := by
  unfold destroyEntity
  split
  · assumption
  · exact List.mem_cons_self _ _

/-- The count of destroy events applied to an entity: unchanged when
the target is already marked, incremented by one otherwise. -/
theorem destroyEntity_count (w : DWorld) (e a : Nat) :
    (destroyEntity w e).destroyLog.count a =
      if e ∈ w.destroyed then w.destroyLog.count a
      else if a = e then w.destroyLog.count a + 1 else w.destroyLog.count a := by
  unfold destroyEntity
  split
  · simp
  · by_cases h : a = e <;> simp [h, List.count_append, List.count_singleton]

/-! ## Guy enemy patrol (src/entities.ts: makeGuyEnemy)

The guy's state handlers: onStateEnter("idle") waits 1 s then enters
"left"; onStateEnter("left") waits 2 s then enters "right";
onStateEnter("right") waits 2 s then enters "left";
onStateUpdate("left") moves at -speed, onStateUpdate("right") at
+speed, with speed = 100.  Absent external interruption the timeline is
the phase sequence below, each phase holding for its wait duration. -/

/-- The guy patrol phases actually reached on the uninterrupted
timeline. -/
inductive GuyState where
  | idle
  | moveLeft
  | moveRight
  deriving DecidableEq, Repr

/-- The successor phase scheduled by each onStateEnter handler's wait
callback. -/
def guyNext : GuyState → GuyState
  | .idle => .moveLeft
  | .moveLeft => .moveRight
  | .moveRight => .moveLeft

/-- The wait duration of each onStateEnter handler, in seconds. -/
def guyDuration : GuyState → ℚ
  | .idle => 1
  | .moveLeft => 2
  | .moveRight => 2

/-- The guy's configured speed property. -/
def guySpeed : ℚ := 100

/-- Horizontal velocity applied by onStateUpdate while in each phase. -/
def guyVelocity : GuyState → ℚ
  | .idle => 0
  | .moveLeft => -guySpeed
  | .moveRight => guySpeed

/-- The n-th phase of the uninterrupted patrol, starting from the
initial state "idle" of k.state. -/
def guyPhase : Nat → GuyState
  | 0 => .idle
  | n + 1 => guyNext (guyPhase n)

/-- The start time of the n-th phase: each phase ends exactly when its
wait fires. -/
def guyPhaseStart : Nat → ℚ
  | 0 => 0
  | n + 1 => guyPhaseStart n + guyDuration (guyPhase n)

/-- Every phase after the initial idle is a movement phase, alternating
left first. -/
theorem guyPhase_alternates (n : Nat) :
    guyPhase (2 * n + 1) = .moveLeft ∧ guyPhase (2 * n + 2) = .moveRight := by
  induction n with
  | zero => exact ⟨rfl, rfl⟩
  | succ n ih =>
    have h1 : 2 * (n + 1) + 1 = (2 * n + 2) + 1 := by ring
    have h2 : 2 * (n + 1) + 2 = ((2 * n + 2) + 1) + 1 := by ring
    refine ⟨?_, ?_⟩
    · rw [h1]; show guyNext (guyPhase (2 * n + 2)) = _; rw [ih.2]; rfl
    · rw [h2]
      show guyNext (guyNext (guyPhase (2 * n + 2))) = _
      rw [ih.2]; rfl

/-- Every phase after the initial idle is moveLeft or moveRight. -/
theorem guyPhase_succ_move (n : Nat) :
    guyPhase (n + 1) = .moveLeft ∨ guyPhase (n + 1) = .moveRight := by
  rcases Nat.even_or_odd n with ⟨m, hm⟩ | ⟨m, hm⟩
  · left
    have : n + 1 = 2 * m + 1 := by omega
    rw [this]
    exact (guyPhase_alternates m).1
  · right
    have : n + 1 = 2 * m + 2 := by omega
    rw [this]
    exact (guyPhase_alternates m).2

/-! ## Flame enemy cycle (src/entities.ts: makeFlameEnemy)

The flame's handlers: onStateEnter("idle") waits 1 s then enters
"jump"; onStateEnter("jump") applies one upward impulse
(flame.jump(1000)); onStateUpdate("jump") polls isGrounded() every tick
and re-enters "idle" when it is true.  The grounded check is an engine
query, taken here as a per-tick input. -/

/-- The flame's two declared states. -/
inductive FlamePhase where
  | idle
  | jump
  deriving DecidableEq, Repr

/-- Flame FSM state on the tick timeline: the current phase, the time
accumulated toward the pending 1 s idle wait, and the running count of
upward impulses applied (each onStateEnter("jump") applies exactly
one). -/
structure FlameState where
  phase : FlamePhase
  elapsed : ℚ
  impulses : Nat
  deriving DecidableEq, Repr

/-- The flame as created: initial state "idle", wait just started. -/
def initialFlame : FlameState :=
  { phase := .idle, elapsed := 0, impulses := 0 }

/-- One tick of dt seconds with the grounded query returning g.  In
idle, the wait callback fires once 1 s has accumulated, entering jump
and applying its entry impulse; in jump, the per-tick poll re-enters
idle (restarting the wait) exactly when grounded is true. -/
def flameStep (s : FlameState) (dt : ℚ) (g : Bool) : FlameState :=
  match s.phase with
  | .idle =>
    if 1 ≤ s.elapsed + dt then
      { phase := .jump, elapsed := 0, impulses := s.impulses + 1 }
    else
      { s with elapsed := s.elapsed + dt }
  | .jump =>
    if g then
      { phase := .idle, elapsed := 0, impulses := s.impulses }
    else
      s

/-- Run the flame over a list of (dt, grounded) ticks. -/
def flameRun (s : FlameState) : List (ℚ × Bool) → FlameState
  | [] => s
  | t :: ts => flameRun (flameStep s t.1 t.2) ts

/-! ## Periodic bird spawning and determinism (src/main.ts, makeBirdEnemy)

Each level scene runs k.loop(10, ...) per bird spawn point: every 10
seconds it spawns a bird at the spawn point with speed
possibleSpeeds[Math.floor(Math.random() * possibleSpeeds.length)] and
the bird moves left at that speed (k.move(k.LEFT, speed)).  The world
below advances in 1-second ticks; the random source is the stream of
indices the Math.random draws floor to. -/

/-- The random speed options of the spawn loop. -/
def possibleSpeeds : List Int := [100, 200, 300]

/-- A live bird: horizontal position and its drawn speed. -/
structure Bird where
  x : Int
  speed : Int
  deriving DecidableEq, Repr

/-- World state for the spawning subsystem: elapsed whole seconds and
the live birds, newest first. -/
structure BirdWorld where
  time : Nat
  birds : List Bird
  deriving DecidableEq, Repr

/-- The bird spawn x-coordinate of the spawn point (a fixed map
datum). -/
def birdSpawnX : Int := 1000

/-- One second of simulation: every live bird moves left by its speed,
and when the k.loop timer comes due (every 10th second) one bird spawns
with the speed selected by the random draw for that instant. -/
def birdStep (w : BirdWorld) (r : Fin 3) : BirdWorld :=
  let moved := w.birds.map (fun b => { b with x := b.x - b.speed })
  let t := w.time + 1
  if t % 10 = 0 then
    { time := t, birds := ⟨birdSpawnX, possibleSpeeds.get ⟨r.1, by simp [possibleSpeeds]⟩⟩ :: moved }
  else
    { time := t, birds := moved }

/-- Run n seconds from a world, drawing the random index for second
t from the stream rand at t. -/
def birdRun (w : BirdWorld) (rand : Nat → Fin 3) : Nat → BirdWorld
  | 0 => w
  | n + 1 => birdStep (birdRun w rand n) (rand (birdRun w rand n).time)

/-- The scene-start world: no birds. -/
def initialBirdWorld : BirdWorld := { time := 0, birds := [] }

/-- A run leaves the clock at the tick count. -/
theorem birdRun_time (w : BirdWorld) (rand : Nat → Fin 3) (n : Nat) :
    (birdRun w rand n).time = w.time + n := by
  induction n with
  | zero => rfl
  | succ n ih =>
    show (birdStep (birdRun w rand n) _).time = _
    simp only [birdStep]
    split <;> simp only [] <;> omega

/-- Two runs agreeing on every random draw at the seconds actually
consumed produce equal worlds. -/
theorem birdRun_congr (w : BirdWorld) (rand rand' : Nat → Fin 3) (n : Nat)
    (h : ∀ t, w.time ≤ t → t < w.time + n → rand t = rand' t) :
    birdRun w rand n = birdRun w rand' n := by
  induction n with
  | zero => rfl
  | succ n ih =>
    have hn : birdRun w rand n = birdRun w rand' n := by
      exact ih (fun t ht ht2 => h t ht (by omega))
    show birdStep (birdRun w rand n) (rand (birdRun w rand n).time) =
      birdStep (birdRun w rand' n) (rand' (birdRun w rand' n).time)
    rw [← hn]
    have ht := birdRun_time w rand n
    rw [h (birdRun w rand n).time (by omega) (by omega)]

/-! ## Claim theorems -/

/-- Claim C1, counterexample: three sequential un-inhaled enemy
contacts starting from health 3 leave the player alive at hp 0 with no
respawn — the claimed single respawn does not happen, because the
collision handler checks hp() === 0 before calling hurt(), so the
destroy / scene-restart fires only on the next (fourth) contact. -/
theorem c1_counterexample :
    (runP initialPWorld
        [.collideEnemy false, .collideEnemy false, .collideEnemy false]).respawns = 0 ∧
    (runP initialPWorld
        [.collideEnemy false, .collideEnemy false, .collideEnemy false]).player.hp = 0 ∧
    (runP initialPWorld
        [.collideEnemy false, .collideEnemy false, .collideEnemy false]).player.alive = true := by
  decide

/-- Claim C1, amended: each un-inhaled enemy contact while health is
positive decrements health by exactly one and causes no respawn; a
contact while health is already zero destroys the player and restarts
the scene exactly once; no handler runs on the destroyed instance; so
four (not three) sequential un-inhaled contacts from health 3 trigger
exactly one respawn, and further contacts add none. -/
theorem c1_amended :
    (∀ w : PWorld, w.player.alive = true → 0 < w.player.hp →
      (stepP w (.collideEnemy false)).player.hp = w.player.hp - 1 ∧
      (stepP w (.collideEnemy false)).respawns = w.respawns ∧
      (stepP w (.collideEnemy false)).player.alive = true) ∧
    (∀ w : PWorld, w.player.alive = true → w.player.hp = 0 →
      (stepP w (.collideEnemy false)).player.alive = false ∧
      (stepP w (.collideEnemy false)).respawns = w.respawns + 1) ∧
    (∀ w : PWorld, w.player.alive = false →
      stepP w (.collideEnemy false) = w) ∧
    (runP initialPWorld (List.replicate 4 (.collideEnemy false))).respawns = 1 ∧
    (runP initialPWorld (List.replicate 6 (.collideEnemy false))).respawns = 1 := by
  refine ⟨?_, ?_, ?_, by decide, by decide⟩
  · intro w h1 h2
    have h3 : ¬ w.player.hp = 0 := by omega
    simp [stepP, onCollideEnemy, h1, h3]
  · intro w h1 h2
    simp [stepP, onCollideEnemy, h1, h2]
  · intro w h1
    simp [stepP, h1]

/-- Claim C1, witness: the amended per-contact facts evaluated at the
freshly created player (alive, hp 3). -/
theorem c1_amended_witness :
    (initialPWorld.player.alive = true ∧ 0 < initialPWorld.player.hp) ∧
    (stepP initialPWorld (.collideEnemy false)).player.hp =
      initialPWorld.player.hp - 1 := by
  refine ⟨⟨rfl, by decide⟩, ?_⟩
  exact (c1_amended.1 initialPWorld rfl (by decide)).1

/-- Claim C2, counterexample: the makeInhalable handlers never consult
the player's state — an overlap-begin with the capture zone while the
player is not Inhaling still sets isInhalable, and the flag survives
the player leaving Inhaling, both contradicting the claim that the flag
is true only while the player is Inhaling and is cleared when the
player leaves Inhaling. -/
theorem c2_counterexample :
    inhalableAfter false [.beginOverlap false] = true ∧
    inhalableAfter false [.beginOverlap true, .playerStopsInhaling] = true := by
  decide

/-- Claim C2, amended: isInhalable is set exactly on each begin-overlap
with the capture zone regardless of the player's state, cleared exactly
on each end-overlap, and is neither set nor cleared by the player
entering or leaving Inhaling; it remains edge-triggered (only the
overlap edges touch it). -/
theorem c2_amended :
    (∀ (b p : Bool), inhalableStep b (.beginOverlap p) = true) ∧
    (∀ (b p : Bool), inhalableStep b (.endOverlap p) = false) ∧
    (∀ b : Bool, inhalableStep b .playerStartsInhaling = b ∧
      inhalableStep b .playerStopsInhaling = b) :=
  ⟨fun _ _ => rfl, fun _ _ => rfl, fun _ => ⟨rfl, rfl⟩⟩

/-- Claim C3, counterexample: a qualifying capture contact (player
Inhaling, enemy isInhalable) destroys the enemy and makes the player
Full, but does not deactivate the capture effect: its opacity is still
1 immediately after the contact, contradicting the claimed
"capture effect is deactivated" on contact. -/
theorem c3_counterexample :
    (runP initialPWorld [.keyDownZ, .collideEnemy true]).player.isFull = true ∧
    (runP initialPWorld [.keyDownZ, .collideEnemy true]).destroyedEnemies = 1 ∧
    (runP initialPWorld [.keyDownZ, .collideEnemy true]).effectOpacity = 1 := by
  decide

/-- Claim C3, amended: on contact while Inhaling with an isInhalable
enemy, the enemy is destroyed and the player transitions Inhaling to
Full; the contact itself leaves the capture-effect opacity unchanged
(the effect is hidden only by a later held-inhale-input dispatch while
Full); the contact clears isInhaling, so only the first qualifying
contact per Inhaling session captures, and while not Inhaling (in
particular while Full) a contact captures nothing. -/
theorem c3_amended :
    (∀ w : PWorld, w.player.alive = true → w.player.isInhaling = true →
      (stepP w (.collideEnemy true)).player.inhaleState = .full ∧
      (stepP w (.collideEnemy true)).player.isInhaling = false ∧
      (stepP w (.collideEnemy true)).destroyedEnemies = w.destroyedEnemies + 1 ∧
      (stepP w (.collideEnemy true)).effectOpacity = w.effectOpacity) ∧
    (∀ w : PWorld, w.player.isInhaling = false →
      (stepP w (.collideEnemy true)).destroyedEnemies = w.destroyedEnemies) ∧
    (∀ w : PWorld, w.player.alive = true → w.player.isFull = true →
      (stepP w .keyDownZ).effectOpacity = 0) := by
  refine ⟨?_, ?_, ?_⟩
  · intro w h1 h2
    simp [stepP, onCollideEnemy, h1, h2, Player.inhaleState]
  · intro w h1
    by_cases ha : w.player.alive = true
    · simp only [stepP, ha, if_true, onCollideEnemy, h1]
      simp only [Bool.false_and, Bool.false_eq_true, if_false]
      split <;> rfl
    · simp [stepP, ha]
  · intro w h1 h2
    simp [stepP, onKeyDownZ, h1, h2]

/-- Claim C3, witness: the amended capture facts evaluated right after
the player starts inhaling. -/
theorem c3_amended_witness :
    ((stepP initialPWorld .keyDownZ).player.alive = true ∧
      (stepP initialPWorld .keyDownZ).player.isInhaling = true) ∧
    (stepP (stepP initialPWorld .keyDownZ) (.collideEnemy true)).player.inhaleState = .full := by
  refine ⟨⟨by decide, by decide⟩, ?_⟩
  exact (c3_amended.1 (stepP initialPWorld .keyDownZ) (by decide) (by decide)).1

/-- Claim C4: with the specification-mandated idempotent destroy guard,
a destroy against an already-marked entity is a no-op, a destroy always
leaves its target marked; in the two-projectiles-one-enemy tick the
enemy and each projectile each receive exactly one destroy event (log
[enemy, star1, star2]), and when the capture path and the projectile
path both fire on the same enemy in one tick the enemy is destroyed
exactly once (log [enemy, star]). -/
theorem c4_destroy_once :
    (∀ (w : DWorld) (e : Nat), e ∈ w.destroyed → destroyEntity w e = w) ∧
    (∀ (w : DWorld) (e : Nat), e ∈ (destroyEntity w e).destroyed) ∧
    (starHitHandler (starHitHandler ⟨[], []⟩ 0 1) 0 2).destroyLog = [0, 1, 2] ∧
    (starHitHandler (captureDestroy ⟨[], []⟩ 0) 0 1).destroyLog = [0, 1] := by
  refine ⟨?_, destroyEntity_mem, by decide, by decide⟩
  intro w e h
  simp [destroyEntity, h]

/-- Claim C4, witness: the no-op fact evaluated at a world that has
already destroyed entity 0. -/
theorem c4_destroy_once_witness :
    ((0 : Nat) ∈ (destroyEntity ⟨[], []⟩ 0).destroyed) ∧
    destroyEntity (destroyEntity ⟨[], []⟩ 0) 0 = destroyEntity ⟨[], []⟩ 0 := by
  refine ⟨by decide, ?_⟩
  exact c4_destroy_once.1 (destroyEntity ⟨[], []⟩ 0) 0 (by decide)

/-- Claim C5: for any machine declared with the flame state set
(idle, jump) or the guy state set (idle, left, right, jump), entering a
state name outside the declared set leaves the machine unchanged and
fires no enter or exit callbacks. -/
theorem c5_invalid_enterState_noop (m : Fsm)
    (hm : m.states = flameFsm.states ∨ m.states = guyFsm.states)
    (name : String) (h : name ∉ m.states) :
    enterState m name = (m, []) := by
  simp [enterState, h]

/-- Claim C5, witness: the flame FSM ignores "left" (declared only for
the guy) and the guy FSM ignores "dash". -/
theorem c5_invalid_enterState_noop_witness :
    (("left" ∉ flameFsm.states) ∧ enterState flameFsm "left" = (flameFsm, [])) ∧
    (("dash" ∉ guyFsm.states) ∧ enterState guyFsm "dash" = (guyFsm, [])) := by
  have h1 : "left" ∉ flameFsm.states := by decide
  have h2 : "dash" ∉ guyFsm.states := by decide
  exact ⟨⟨h1, c5_invalid_enterState_noop flameFsm (Or.inl rfl) "left" h1⟩,
    ⟨h2, c5_invalid_enterState_noop guyFsm (Or.inr rfl) "dash" h2⟩⟩

/-- Claim C6, counterexample: immediately after the inhale key is
released while Full — with the whole 1-second cooldown still pending —
the player has already left Full (derived state Idle, since isFull is
cleared at release) and shows the kirbInhaling animation, not the full
appearance, contradicting the claimed transition to Idle only after the
cooldown with the full appearance persisting. -/
theorem c6_counterexample :
    (runP initialPWorld [.keyDownZ, .collideEnemy true, .keyReleaseZ]).player.inhaleState
        = .idle ∧
    (runP initialPWorld [.keyDownZ, .collideEnemy true, .keyReleaseZ]).player.anim
        = .kirbInhaling ∧
    (runP initialPWorld [.keyDownZ, .collideEnemy true, .keyReleaseZ]).idleWait
        = some 1 := by
  decide

/-- Claim C6, amended: releasing the inhale input while Full spawns
exactly one projectile at the fixed speed 800 moving in the player's
current facing direction, clears isFull immediately (so the derived
state is Idle at once, not after the cooldown) and switches to the
kirbInhaling animation; a pending 1-second wait is scheduled, during
which the animation is untouched by smaller time steps, and when it
elapses the idle animation plays. -/
theorem c6_amended :
    (∀ w : PWorld, w.player.alive = true → w.player.isFull = true →
      (stepP w .keyReleaseZ).stars = ⟨w.player.direction, 800⟩ :: w.stars ∧
      (stepP w .keyReleaseZ).player.isFull = false ∧
      (stepP w .keyReleaseZ).player.anim = .kirbInhaling ∧
      (stepP w .keyReleaseZ).idleWait = some 1) ∧
    (∀ w : PWorld, w.player.isInhaling = false → w.player.isFull = false →
      w.player.inhaleState = .idle) ∧
    (∀ (w : PWorld) (r dt : ℚ), w.idleWait = some r → dt < r →
      (stepP w (.tick dt)).player.anim = w.player.anim ∧
      (stepP w (.tick dt)).idleWait = some (r - dt)) ∧
    (∀ (w : PWorld) (r dt : ℚ), w.idleWait = some r → r ≤ dt →
      (stepP w (.tick dt)).player.anim = .kirbIdle ∧
      (stepP w (.tick dt)).idleWait = none) := by
  refine ⟨?_, ?_, ?_, ?_⟩
  · intro w h1 h2
    simp [stepP, onKeyReleaseZ, h1, h2]
  · intro w h1 h2
    simp [Player.inhaleState, h1, h2]
  · intro w r dt h1 h2
    simp [stepP, onTick, h1, not_le.mpr h2]
  · intro w r dt h1 h2
    simp [stepP, onTick, h1, h2]

/-- Claim C6, witness: the amended shoot facts evaluated at the world
reached by inhaling and capturing an enemy. -/
theorem c6_amended_witness :
    ((runP initialPWorld [.keyDownZ, .collideEnemy true]).player.alive = true ∧
      (runP initialPWorld [.keyDownZ, .collideEnemy true]).player.isFull = true) ∧
    (stepP (runP initialPWorld [.keyDownZ, .collideEnemy true]) .keyReleaseZ).stars
      = [⟨.right, 800⟩] := by
  refine ⟨⟨by decide, by decide⟩, ?_⟩
  have h := (c6_amended.1 (runP initialPWorld [.keyDownZ, .collideEnemy true])
    (by decide) (by decide)).1
  simpa using h

/-- Claim C7: the guy patrol starts in idle, whose delay is exactly 1
second, then alternates moveLeft and moveRight forever; every phase
after the initial idle lasts exactly 2 seconds (phase n+1 starts at
time 1 + 2n) at the fixed speed 100, and the applied velocity flips
sign exactly at each phase boundary. -/
theorem c7_guy_patrol :
    guyPhase 0 = .idle ∧ guyDuration .idle = 1 ∧ guySpeed = 100 ∧
    (∀ n : Nat, guyPhase (2 * n + 1) = .moveLeft ∧ guyPhase (2 * n + 2) = .moveRight) ∧
    (∀ n : Nat, guyDuration (guyPhase (n + 1)) = 2) ∧
    (∀ n : Nat, guyPhaseStart (n + 1) = 1 + 2 * (n : ℚ)) ∧
    (∀ n : Nat, guyVelocity (guyPhase (2 * n + 1)) = -guySpeed ∧
      guyVelocity (guyPhase (2 * n + 2)) = guySpeed) := by
  have hdur : ∀ n : Nat, guyDuration (guyPhase (n + 1)) = 2 := by
    intro n
    rcases guyPhase_succ_move n with h | h <;> rw [h] <;> rfl
  have hstart : ∀ n : Nat, guyPhaseStart (n + 1) = 1 + 2 * (n : ℚ) := by
    intro n
    induction n with
    | zero => simp [guyPhaseStart, guyPhase, guyDuration]
    | succ n ih =>
      show guyPhaseStart (n + 1) + guyDuration (guyPhase (n + 1)) = _
      rw [ih, hdur n]
      push_cast
      ring
  refine ⟨rfl, rfl, rfl, guyPhase_alternates, hdur, hstart, ?_⟩
  intro n
  have h := guyPhase_alternates n
  rw [h.1, h.2]
  exact ⟨rfl, rfl⟩

/-- Claim C8: the flame cycle — in idle, a time step that does not
complete the 1-second delay only accumulates it, while the step that
reaches 1 second enters jump applying exactly one upward impulse; in
jump, every tick with the grounded check false changes nothing, and the
first tick with it true returns to idle (delay restarted) with no
further impulse. -/
theorem c8_flame_cycle :
    (∀ (s : FlameState) (dt : ℚ) (g : Bool), s.phase = .idle → s.elapsed + dt < 1 →
      flameStep s dt g = { s with elapsed := s.elapsed + dt }) ∧
    (∀ (s : FlameState) (dt : ℚ) (g : Bool), s.phase = .idle → 1 ≤ s.elapsed + dt →
      flameStep s dt g = { phase := .jump, elapsed := 0, impulses := s.impulses + 1 }) ∧
    (∀ (s : FlameState) (dt : ℚ), s.phase = .jump → flameStep s dt false = s) ∧
    (∀ (s : FlameState) (dt : ℚ), s.phase = .jump →
      flameStep s dt true = { phase := .idle, elapsed := 0, impulses := s.impulses }) := by
  refine ⟨?_, ?_, ?_, ?_⟩
  · rintro ⟨ph, el, im⟩ dt g h1 h2
    subst h1
    simp [flameStep, not_le.mpr h2]
  · rintro ⟨ph, el, im⟩ dt g h1 h2
    subst h1
    simp [flameStep, h2]
  · rintro ⟨ph, el, im⟩ dt h1
    subst h1
    simp [flameStep]
  · rintro ⟨ph, el, im⟩ dt h1
    subst h1
    simp [flameStep]

/-- Claim C8, witness: the idle-to-jump edge evaluated at the freshly
spawned flame with a full 1-second step. -/
theorem c8_flame_cycle_witness :
    (initialFlame.phase = .idle ∧ (1 : ℚ) ≤ initialFlame.elapsed + 1) ∧
    flameStep initialFlame 1 false = { phase := .jump, elapsed := 0, impulses := 1 } := by
  refine ⟨⟨rfl, by norm_num [initialFlame]⟩, ?_⟩
  have h := c8_flame_cycle.2.1 initialFlame 1 false rfl (by norm_num [initialFlame])
  simpa [initialFlame] using h

/-- Claim C9, counterexample: two replays from the identical initial
world with identical (empty) input/collision sequences but different
random draws at the spawn instant produce different final world states
— the spawned flyer's speed comes from the engine's random source, so
the final state is not a function of initial state and inputs alone. -/
theorem c9_counterexample :
    birdRun initialBirdWorld (fun _ => 0) 10 ≠
      birdRun initialBirdWorld (fun _ => 1) 10 := by
  decide

/-- Claim C9, amended: the per-tick resolution, periodic spawning
included, is a deterministic function of the initial world state, the
input/collision sequence, and the random draws consumed at the spawn
instants: two replays from an identical initial state whose random
streams agree at every second of the replayed window yield identical
final world states. -/
theorem c9_amended (w : BirdWorld) (rand rand' : Nat → Fin 3) (n : Nat)
    (h : ∀ t, w.time ≤ t → t < w.time + n → rand t = rand' t) :
    birdRun w rand n = birdRun w rand' n :=
  birdRun_congr w rand rand' n h

/-- Claim C9, witness: two random streams that agree on the replayed
12-second window (and disagree later) replay to the same world. -/
theorem c9_amended_witness :
    birdRun initialBirdWorld (fun t => if t < 12 then (0 : Fin 3) else 1) 12 =
      birdRun initialBirdWorld (fun t => if t < 12 then (0 : Fin 3) else 2) 12 := by
  apply c9_amended
  intro t ht1 ht2
  have h0 : initialBirdWorld.time = 0 := rfl
  rw [h0] at ht2
  have h12 : t < 12 := by omega
  simp [h12]

/-- Claim C10: each setter of the global game state leaves its field
unchanged on any name outside the fixed scene list, and along any
sequence of setter calls from the initial global state the current
scene stays in the scene list while the next scene is the initial empty
string or in the scene list. -/
theorem c10_scene_setters_guarded :
    (∀ (g : GlobalGameState) (n : String), n ∉ g.scenes →
      setCurrentScene g n = g ∧ setNextScene g n = g) ∧
    (∀ cs : List SceneCall,
      (applySceneCalls initialGameState cs).currentScene ∈ initialGameState.scenes ∧
        ((applySceneCalls initialGameState cs).nextScene = "" ∨
          (applySceneCalls initialGameState cs).nextScene ∈ initialGameState.scenes)) := by
  constructor
  · intro g n h
    constructor <;> simp [setCurrentScene, setNextScene, h]
  · intro cs
    have h := applySceneCalls_inv cs initialGameState (by decide) (Or.inl rfl)
    have hs := applySceneCalls_scenes cs initialGameState
    rw [hs] at h
    exact h

/-- Claim C10, witness: the setters ignore the undeclared scene name
"level-3" on the initial global state. -/
theorem c10_scene_setters_guarded_witness :
    ("level-3" ∉ initialGameState.scenes) ∧
    setCurrentScene initialGameState "level-3" = initialGameState ∧
    setNextScene initialGameState "level-3" = initialGameState := by
  have h : "level-3" ∉ initialGameState.scenes := by decide
  have h2 := c10_scene_setters_guarded.1 initialGameState "level-3" h
  exact ⟨h, h2.1, h2.2⟩

end KirbyGame
